import Mathlib

/-!
Verification development for the Expression Atlas retrieval-and-recommendation
engine (`vector_search.py`, `smart_chat.py`).

The Python code is shallowly embedded: pure fragments become Lean functions on
`List Char` / `String` / `ℚ`; NumPy float vectors become `List ℚ`; the IEEE NaN
produced by an unguarded `0/0` is modelled by `Option` (`none` = NaN); external
collaborators (sentence-transformer encoder, FTP listing, file download) become
explicit function or data parameters of the embedded operations.
-/

/-! ## String utilities (models of Python `str` operations) -/

/-- Model of Python `str.lower()` (adequate for the ASCII keywords involved;
CJK characters are unaffected by lowercasing in both systems). -/
def lowerStr (s : List Char) : List Char := s.map Char.toLower

/-- Model of `str.upper()` on a character list. -/
def upperStr (cs : List Char) : String := String.mk (cs.map Char.toUpper)

/-- `startsWith needle hay`: `needle` is an initial segment of `hay`. -/
def startsWith : List Char → List Char → Bool
  | [], _ => true
  | _ :: _, [] => false
  | a :: as, b :: bs => a == b && startsWith as bs

/-- Model of Python `needle in hay` (contiguous substring test). -/
def subOf (needle : List Char) : List Char → Bool
  | [] => startsWith needle []
  | c :: t => startsWith needle (c :: t) || subOf needle t

/-- Model of `str.endswith(suffix)`. -/
def endsWith (hay suffix : List Char) : Bool :=
  startsWith suffix.reverse hay.reverse

/-- Drop leading whitespace. -/
def dropLead : List Char → List Char
  | [] => []
  | c :: t => if c.isWhitespace then dropLead t else c :: t

/-- Model of Python `str.strip()`. -/
def strip (s : List Char) : List Char :=
  ((dropLead ((dropLead s).reverse)).reverse)

/-- Value of a nonempty all-digit string, `none` otherwise (auxiliary). -/
def digitsValAux : List Char → Nat → Option Nat
  | [], acc => some acc
  | c :: t, acc =>
      if c.isDigit then digitsValAux t (10 * acc + (c.toNat - 48)) else none

/-- Value of a nonempty all-digit string, `none` otherwise. -/
def digitsVal : List Char → Option Nat
  | [] => none
  | c :: t => digitsValAux (c :: t) 0

/-- Model of Python `int(s)` on an already-stripped string: optional sign
followed by at least one digit; anything else raises `ValueError` (`none`). -/
def pyParseInt : List Char → Option Int
  | '+' :: t => (digitsVal t).map Int.ofNat
  | '-' :: t => (digitsVal t).map (fun n => -(Int.ofNat n))
  | s => (digitsVal s).map Int.ofNat

/-! ## Data model and corpus loader (`ExperimentVectorSearch._load_experiments`)

A CSV cell that pandas could not parse is a `NaN`; we model a raw cell as
`Option String` with `none` for `NaN`. The loader stores `accession` and
`species` as they come (a `NaN` is stored as-is, the row is kept), and
defaults `description` and `factors` to `''` via the `pd.notna` guard. -/

/-- One raw CSV row as delivered by `pd.read_csv` (`none` = unparseable/NaN). -/
structure RawRow where
  accession : Option String
  species : Option String
  description : Option String
  factors : Option String
deriving DecidableEq

/-- An in-memory experiment record (one element of `self.experiments`).
`accession`/`species` keep the raw cell (`none` models a stored NaN float). -/
structure Exp where
  accession : Option String
  type : String
  species : Option String
  description : String
  factors : String
deriving DecidableEq

/-- Model of Python `str(cell)` for a possibly-NaN cell: `str(float('nan'))`
is the string `'nan'`. -/
def pyStrOpt : Option String → String
  | some s => s
  | none => "nan"

/-- The record appended for one CSV row of category `cat`
(`_load_experiments`, lines 47–53 / 59–65). -/
def rowToExp (cat : String) (r : RawRow) : Exp :=
  { accession := r.accession
    type := cat
    species := r.species
    description := r.description.getD ""
    factors := r.factors.getD "" }

/-- `_load_experiments`: a missing file (`none`) contributes zero rows;
baseline rows come first, then differential rows, preserving row order. -/
def loadExperiments (baselineFile differentialFile : Option (List RawRow)) :
    List Exp :=
  ((baselineFile.getD []).map (rowToExp "baseline")) ++
    ((differentialFile.getD []).map (rowToExp "differential"))


/-! ## Similarity scores (`ExperimentVectorSearch.search`, lines 237–240)

The code computes `dot(row, query) / (norm(row) * norm(query))` on floats with
no guard, so a zero norm produces an IEEE NaN (`0/0`: a zero-norm vector also
zeroes the dot product). A non-NaN score `d / sqrt p` (with `p > 0` the
product of the two sums of squares) is represented square-root-free as
`some (d, p)`; NaN is `none`. -/

abbrev Vec := List ℚ

/-- `np.dot` on equal-length vectors. -/
def dotQ : Vec → Vec → ℚ
  | [], _ => 0
  | _, [] => 0
  | a :: as, b :: bs => a * b + dotQ as bs

/-- Sum of squares of a vector (the square of `np.linalg.norm`). -/
def sumSq (v : Vec) : ℚ := dotQ v v

/-- A similarity value: `some (d, p)` stands for the real number `d / sqrt p`;
`none` is the NaN produced by the unguarded division by a zero norm. -/
abbrev Score := Option (ℚ × ℚ)

/-- Cosine similarity of one embedding row against the query vector, exactly
as computed (unguarded) by the code. -/
def cosineScore (row q : Vec) : Score :=
  if sumSq row = 0 ∨ sumSq q = 0 then none
  else some (dotQ row q, sumSq row * sumSq q)

/-- Does a score denote the real number 0 (formalizing the spec's
"yields a similarity of 0")? A NaN does not. -/
def isZeroScore : Score → Bool
  | some (d, _) => d == 0
  | none => false

/-- The denominator datum `p` when positive, else `1`: every score built by
`cosineScore` has a positive second component, so this normalization never
changes a score the program actually produces; it only makes the comparator
below a genuine total preorder on all representations. -/
def posDen (p : ℚ) : ℚ := if 0 < p then p else 1

/-- Float comparison `d1 / sqrt p1 <= d2 / sqrt p2`, square-root-free via sign
analysis and cross multiplication. -/
def ratPairLe (a b : ℚ × ℚ) : Bool :=
  if a.1 < 0 then
    (if 0 ≤ b.1 then true else decide (b.1 ^ 2 * posDen a.2 ≤ a.1 ^ 2 * posDen b.2))
  else
    (if b.1 < 0 then false else decide (a.1 ^ 2 * posDen b.2 ≤ b.1 ^ 2 * posDen a.2))

/-- Score comparison as `np.argsort` orders floats: NaN sorts after every
number (ascending), so `none` is a maximal element. -/
def scoreLe : Score → Score → Bool
  | _, none => true
  | none, some _ => false
  | some a, some b => ratPairLe a b


/-! ## The ranker (`ExperimentVectorSearch.search`, lines 186–254)

The query embedding is produced by the external encoder (sentence transformer
or fitted TF-IDF) and enters as a plain vector parameter. `np.argsort` (then
`[::-1]`, then `[:top_k]`) is modelled as a stable ascending insertion sort of
the score-annotated candidates, reversed and truncated. -/

/-- Lowercased `str(exp.get('species', ''))` used by the species filter. -/
def speciesText (e : Exp) : List Char := lowerStr (pyStrOpt e.species).data

/-- The record-level filter of `search` (lines 213–219): a falsy
(`None` or empty) filter string disables the corresponding test. -/
def passFilter (speciesFilter experimentType : Option String) (e : Exp) : Bool :=
  (match speciesFilter with
   | none => true
   | some s => if s.isEmpty then true else subOf (lowerStr s.data) (speciesText e))
  &&
  (match experimentType with
   | none => true
   | some t => if t.isEmpty then true else decide (e.type = t))

/-- A filtered candidate: original corpus index, record, embedding row. -/
abbrev Cand := Nat × Exp × Vec

/-- Pair each record with its corpus index and embedding row
(the enumerate/zip of lines 213–223). -/
def zipIdx (i : Nat) : List Exp → List Vec → List Cand
  | [], _ => []
  | _, [] => []
  | e :: es, v :: vs => (i, e, v) :: zipIdx (i + 1) es vs

/-- The filtered candidate list, in corpus order. -/
def filteredCands (exps : List Exp) (embs : List Vec)
    (speciesFilter experimentType : Option String) : List Cand :=
  (zipIdx 0 exps embs).filter (fun c => passFilter speciesFilter experimentType c.2.1)

/-- A score-annotated candidate: original corpus index, record, similarity. -/
abbrev ScEntry := Nat × Exp × Score

/-- Similarity of every filtered row against the query (line 238). -/
def scoredCands (q : Vec) (l : List Cand) : List ScEntry :=
  l.map (fun c => (c.1, c.2.1, cosineScore c.2.2 q))

/-- Stable insertion into an ascending run (a new element goes before the
first element it is `scoreLe`-below-or-equal, hence before equals). -/
def insScore (x : ScEntry) : List ScEntry → List ScEntry
  | [] => [x]
  | y :: ys => if scoreLe x.2.2 y.2.2 then x :: y :: ys else y :: insScore x ys

/-- Stable ascending sort by score: the deterministic model of
`np.argsort(similarities)` (line 243). -/
def sortAsc : List ScEntry → List ScEntry
  | [] => []
  | x :: xs => insScore x (sortAsc xs)

/-- One returned result: the record dict plus `similarity_score` and 1-based
`rank`; `origIdx` records which corpus row it is (the code's
`filtered_indices` bookkeeping). -/
structure SearchHit where
  origIdx : Nat
  exp : Exp
  score : Score
  rank : Nat
deriving DecidableEq

/-- Attach 1-based ranks in list order (lines 245–252). -/
def attachRanks (n : Nat) : List ScEntry → List SearchHit
  | [] => []
  | (i, e, s) :: t => ⟨i, e, s, n⟩ :: attachRanks (n + 1) t

/-- `ExperimentVectorSearch.search`, with the already-built embedding matrix
and the encoded query vector passed in explicitly. -/
def searchExps (exps : List Exp) (embs : List Vec) (qEmb : Vec) (topK : Nat)
    (speciesFilter experimentType : Option String) : List SearchHit :=
  let cands := filteredCands exps embs speciesFilter experimentType
  if cands.isEmpty then []
  else attachRanks 1 (((sortAsc (scoredCands qEmb cands)).reverse).take topK)

/-- `search_by_keywords` (lines 256–291): join species and keywords into the
query text, encode it, and search with `species_filter = species`,
`experiment_type = category`. -/
def searchByKeywords (exps : List Exp) (embs : List Vec)
    (encoder : String → Vec) (species : Option String) (keywords : List String)
    (experimentType : String) (topK : Nat) : List SearchHit :=
  let queryParts := (match species with | some s => [s] | none => []) ++ keywords
  let query := String.intercalate " " queryParts
  searchExps exps embs (encoder query) topK species (some experimentType)





/-! ## The indexer (`ExperimentVectorSearch.build_index`, lines 105–184)

The cache file contents, the availability of `sentence_transformers`, and the
two encoders are explicit parameters. The outcome records, besides the
embedding matrix, whether the cached matrix was reused, whether
`_init_model` was called (it loads the transformer model), and whether the
batch `model.encode(texts)` call was made. -/

/-- `searchable text` of one record (`_create_searchable_text`): species,
description, type, comma-normalized factors; parts that are empty or the
string `'nan'` (case-insensitive) are skipped. -/
def commaToSpace (s : String) : String :=
  String.mk (s.data.map (fun c => if c = ',' then ' ' else c))

def searchableText (e : Exp) : String :=
  let parts := [pyStrOpt e.species, e.description, e.type] ++
    (if e.factors.isEmpty then [] else [commaToSpace e.factors])
  String.intercalate " "
    (parts.filter (fun p => !p.isEmpty && !(lowerStr p.data = "nan".data)))

/-- Deserialized contents of `embeddings_cache.pkl`: matrix, the row count
written at build time, and the method tag. -/
structure CacheData where
  embeddings : List Vec
  numExperiments : Nat
  method : String
deriving DecidableEq

/-- Result of `build_index`, with the observable side effects recorded. -/
structure BuildOutcome where
  embeddings : List Vec
  usedCache : Bool
  /-- `_init_model` was called (it attempts to load the transformer). -/
  initModelCalled : Bool
  /-- the batch `model.encode(texts)` call was made -/
  encodeCalled : Bool
  method : String
deriving DecidableEq

/-- `build_index`: if a readable cache exists and `force_rebuild` is false it
is reused unconditionally (lines 115–129; the stored `num_experiments` is
never consulted); a cached sentence-transformer matrix still loads the model
for query encoding, a cached TF-IDF matrix refits the vectorizer instead.
Otherwise `_init_model()` is always attempted, and with the model available
`model.encode` runs on the searchable texts (even when there are none). -/
def buildIndex (cache : Option CacheData) (forceRebuild : Bool)
    (modelAvailable : Bool) (encoder : String → Vec)
    (tfidfEncoder : List Exp → String → Vec) (exps : List Exp) : BuildOutcome :=
  match (if forceRebuild then none else cache) with
  | some c =>
      if c.method = "tfidf" then
        ⟨c.embeddings, true, false, false, c.method⟩
      else
        ⟨c.embeddings, true, true, false, c.method⟩
  | none =>
      if modelAvailable then
        ⟨exps.map (fun e => encoder (searchableText e)), false, true, true,
          "sentence-transformers"⟩
      else
        ⟨exps.map (fun e => tfidfEncoder exps (searchableText e)), false, true, false,
          "tfidf"⟩


/-! ## The chat parser (`SmartChatParser.parse_user_input`, lines 99–152)

`SPECIES_MAP` and the keyword tables are embedded literally in source
(insertion) order — Python dicts iterate in insertion order. The
`TISSUE_KEYWORDS` set iterates in an unspecified order in Python; the claims
below never depend on the order of the extracted keyword list. -/

def speciesMap : List (String × String) :=
  [("人", "homo sapiens"), ("人类", "homo sapiens"),
   ("小鼠", "mus musculus"), ("老鼠", "mus musculus"),
   ("大鼠", "rattus norvegicus"), ("拟南芥", "arabidopsis thaliana"),
   ("斑马鱼", "danio rerio"), ("果蝇", "drosophila melanogaster"),
   ("酵母", "saccharomyces cerevisiae"), ("线虫", "caenorhabditis elegans"),
   ("鸡", "gallus gallus"), ("猪", "sus scrofa"), ("牛", "bos taurus"),
   ("human", "homo sapiens"), ("humans", "homo sapiens"),
   ("homo sapiens", "homo sapiens"), ("mouse", "mus musculus"),
   ("mice", "mus musculus"), ("mus musculus", "mus musculus"),
   ("rat", "rattus norvegicus"), ("arabidopsis", "arabidopsis thaliana"),
   ("thale cress", "arabidopsis thaliana"), ("zebrafish", "danio rerio"),
   ("fruit fly", "drosophila melanogaster"),
   ("drosophila", "drosophila melanogaster"),
   ("yeast", "saccharomyces cerevisiae"),
   ("c. elegans", "caenorhabditis elegans"),
   ("worm", "caenorhabditis elegans"), ("chicken", "gallus gallus"),
   ("pig", "sus scrofa"), ("cow", "bos taurus"), ("cattle", "bos taurus")]

def tissueKeywords : List String :=
  ["brain", "liver", "heart", "kidney", "lung", "muscle", "skin",
   "seedling", "root", "leaf", "flower", "shoot", "stem", "seed",
   "大脑", "肝脏", "心脏", "肾脏", "肺", "肌肉", "皮肤",
   "幼苗", "根", "叶", "花", "芽", "茎", "种子",
   "cold", "heat", "temperature", "stress", "drought", "salt",
   "osmotic", "oxidative", "light", "dark", "uv", "pathogen",
   "infection", "hormone", "auxin", "cytokinin", "abscisic",
   "低温", "高温", "干旱", "盐", "胁迫", "光照", "黑暗"]

def baselineKws : List String :=
  ["baseline", "normal", "tissue", "正常", "组织", "基线"]

def differentialKws : List String :=
  ["differential", "disease", "treatment", "cancer", "差异", "疾病", "治疗", "癌症"]

def downloadWords : List String := ["下载", "download", "获取", "get"]

def browseWords : List String := ["浏览", "browse", "查看", "view", "有什么文件"]

/-- Try to match the regex `E-[A-Z]+-\d+` (IGNORECASE) anchored at the head of
the text: `E`/`e`, `-`, a maximal nonempty letter run, `-`, a maximal nonempty
digit run. (`[A-Z]+` can never trade letters for the following `-`, so maximal
munch coincides with the regex engine's backtracking semantics.) -/
def matchExpIdAt : List Char → Option (List Char)
  | c1 :: '-' :: rest =>
      if c1 = 'E' ∨ c1 = 'e' then
        let letters := rest.takeWhile Char.isAlpha
        let rest2 := rest.dropWhile Char.isAlpha
        if letters.isEmpty then none
        else
          match rest2 with
          | '-' :: rest3 =>
              let digits := rest3.takeWhile Char.isDigit
              if digits.isEmpty then none
              else some (c1 :: '-' :: (letters ++ '-' :: digits))
          | _ => none
      else none
  | _ => none

/-- `re.search(r'E-[A-Z]+-\d+', text, re.IGNORECASE)`: the leftmost match. -/
def findFirstExpId : List Char → Option (List Char)
  | [] => none
  | c :: rest =>
      match matchExpIdAt (c :: rest) with
      | some m => some m
      | none => findFirstExpId rest

/-- The parse result dict of `parse_user_input`. -/
structure Parsed where
  species : Option String
  keywords : List String
  experimentType : String
  experimentId : Option String
  intent : String
deriving DecidableEq

def anyKw (kws : List String) (low : List Char) : Bool :=
  kws.any (fun k => subOf k.data low)

/-- `parse_user_input`: experiment-ID regex on the raw input (uppercased
match), first species-map hit, first experiment-type bucket with a keyword
hit (default `'baseline'`), all tissue keywords present, and the intent
(`download` if an ID matched, overridden by explicit download/browse words). -/
def parseUserInput (input : String) : Parsed :=
  let low := lowerStr input.data
  let eid := (findFirstExpId input.data).map upperStr
  let species := (speciesMap.find? (fun p => subOf p.1.data low)).map (fun p => p.2)
  let etype :=
    if anyKw baselineKws low then "baseline"
    else if anyKw differentialKws low then "differential"
    else "baseline"
  let kws := tissueKeywords.filter (fun k => subOf k.data low)
  let intent0 := if eid.isSome then "download" else "search"
  let intent :=
    if anyKw downloadWords low then "download"
    else if anyKw browseWords low then "browse"
    else intent0
  ⟨species, kws, etype, eid, intent⟩


/-! ## The conversation coordinator (`SmartChat`, lines 219–602)

External collaborators enter as data: the FTP listing for the selected
accession (`browse_ftp_directory` is network I/O; only the file names matter
to the control flow, so files are modelled by their names), the fallback
recommendation (`KNOWN_EXPERIMENTS` / `get_popular_experiments`), and the
mapping returned by `download_experiment_data`. Printing-only state
(`ftp_result`, `identified_files`) is omitted from the session record. -/

inductive ChatState | INITIAL | SELECTING | CONFIRMING
deriving DecidableEq

/-- A stored accession cell: `none` models a NaN accession kept by the loader
(truthy in Python), `some s` a string (falsy iff empty). -/
abbrev AccCell := Option String

def accTruthy : AccCell → Bool
  | none => true
  | some s => !s.isEmpty

/-- The conversation session (`SmartChat.__init__` / `_reset_state`).
`selectedExperiment` is `none` for Python `None`, `some cell` once set. -/
structure Session where
  state : ChatState
  currentQuery : Option Parsed
  currentRecommendations : List SearchHit
  selectedExperiment : Option AccCell
deriving DecidableEq

def resetSession : Session := ⟨.INITIAL, none, [], none⟩

/-- Outcome of `browse_ftp_directory` for the selected accession. -/
structure FtpResult where
  success : Bool
  files : List String
deriving DecidableEq

/-- Categorization of one file name (`identify_expression_files`). -/
inductive FileCat | tpms | fpkms | counts | metadata | other
deriving DecidableEq

def fileCatOf (name : String) : FileCat :=
  let low := lowerStr name.data
  if subOf "tpm".data low && endsWith low ".tsv".data then .tpms
  else if subOf "fpkm".data low && endsWith low ".tsv".data then .fpkms
  else if subOf "count".data low && endsWith low ".tsv".data then .counts
  else if subOf "sdrf".data low then .metadata
  else .other

/-- The recommended download: first tpms file, else first fpkms, else first
counts (lines 329–340). -/
def recommendedFile (files : List String) : Option String :=
  match files.filter (fun f => fileCatOf f = .tpms) with
  | f :: _ => some f
  | [] =>
      match files.filter (fun f => fileCatOf f = .fpkms) with
      | f :: _ => some f
      | [] =>
          match files.filter (fun f => fileCatOf f = .counts) with
          | f :: _ => some f
          | [] => none

/-- `_show_experiment_details` (lines 473–556): ends in `CONFIRMING` only when
the FTP browse succeeded and a recommended expression file was identified;
every other branch (falsy accession, browse failure, no recommendation)
shows a manual guide and resets the session. -/
def showExperimentDetails (sess : Session) (ftp : FtpResult) : Session :=
  match sess.selectedExperiment with
  | none => resetSession
  | some acc =>
      if accTruthy acc then
        if ftp.success then
          match recommendedFile ftp.files with
          | some _ => { sess with state := .CONFIRMING }
          | none => resetSession
        else resetSession
      else resetSession

/-- Observable outcome of one `process_query` turn. -/
structure TurnOutcome where
  sess : Session
  /-- the vector search ran during this turn -/
  searchRan : Bool
  /-- accession handed to `_show_experiment_details`, when that step ran -/
  detailAccession : Option AccCell
  /-- `download_experiment_data` was triggered -/
  downloadInvoked : Bool
deriving DecidableEq

/-- `_handle_selection` (lines 441–462). -/
def handleSelection (sess : Session) (input : String) (ftp : FtpResult) :
    TurnOutcome :=
  let u := lowerStr (strip input.data)
  if u = "back".data ∨ u = "new".data ∨ u = "cancel".data then
    ⟨resetSession, false, none, false⟩
  else
    match pyParseInt u with
    | some n =>
        if 1 ≤ n ∧ n ≤ (sess.currentRecommendations.length : Int) then
          match sess.currentRecommendations.get? (n.toNat - 1) with
          | some sel =>
              let sess1 := { sess with selectedExperiment := some sel.exp.accession }
              ⟨showExperimentDetails sess1 ftp, false, some sel.exp.accession, false⟩
          | none => ⟨sess, false, none, false⟩
        else ⟨sess, false, none, false⟩
    | none => ⟨sess, false, none, false⟩

/-- `_handle_download_confirmation` (lines 558–602): the download outcome
(`downloaded`, empty = failure) is only reported; the session resets either
way. -/
def handleDownloadConfirmation (sess : Session) (input : String)
    (downloaded : List (String × String)) : TurnOutcome :=
  let u := lowerStr (strip input.data)
  if u = "back".data ∨ u = "cancel".data then
    if sess.currentRecommendations.isEmpty then ⟨resetSession, false, none, false⟩
    else ⟨{ sess with state := .SELECTING }, false, none, false⟩
  else if u = "yes".data ∨ u = "y".data ∨ u = "download".data then
    ⟨resetSession, false, none, true⟩
  else if u = "no".data ∨ u = "n".data ∨ u = "skip".data then
    ⟨resetSession, false, none, false⟩
  else ⟨sess, false, none, false⟩

/-- `parser.get_top_experiments(parsed, top_k=3)` for a raw input string. -/
def topExperimentsFor (input : String) (exps : List Exp) (embs : List Vec)
    (encoder : String → Vec) : List SearchHit :=
  let parsed := parseUserInput input
  searchByKeywords exps embs encoder parsed.species parsed.keywords
    parsed.experimentType 3

/-- The `INITIAL`-state branch of `process_query` (lines 361–406).
`fallbackRec` models `recommend_experiment`'s non-vector-search result
(`KNOWN_EXPERIMENTS` lookup / popular-experiment list), reached only when the
top-3 search is empty. -/
def processInitial (sess : Session) (input : String) (exps : List Exp)
    (embs : List Vec) (encoder : String → Vec) (ftp : FtpResult)
    (fallbackRec : Option String) : TurnOutcome :=
  let parsed := parseUserInput input
  let sess1 := { sess with currentQuery := some parsed }
  match parsed.experimentId with
  | some eid =>
      let sess2 := { sess1 with selectedExperiment := some (some eid) }
      ⟨showExperimentDetails sess2 ftp, false, some (some eid), false⟩
  | none =>
      let top := topExperimentsFor input exps embs encoder
      if top.isEmpty then
        match fallbackRec with
        | some eid =>
            let sess2 := { sess1 with selectedExperiment := some (some eid) }
            ⟨showExperimentDetails sess2 ftp, true, some (some eid), false⟩
        | none => ⟨sess1, true, none, false⟩
      else
        ⟨{ sess1 with currentRecommendations := top, state := .SELECTING },
          true, none, false⟩

/-- One full `process_query` turn: dispatch on the conversation state. -/
def processQuery (sess : Session) (input : String) (exps : List Exp)
    (embs : List Vec) (encoder : String → Vec) (ftp : FtpResult)
    (fallbackRec : Option String) (downloaded : List (String × String)) :
    TurnOutcome :=
  match sess.state with
  | .SELECTING => handleSelection sess input ftp
  | .CONFIRMING => handleDownloadConfirmation sess input downloaded
  | .INITIAL => processInitial sess input exps embs encoder ftp fallbackRec

/-- Projection of a hit back to its score-annotated entry. -/
def hitEntry (h : SearchHit) : ScEntry := (h.origIdx, h.exp, h.score)

/-- The order actually realized by the stable ascending sort on entries that
arrive in strictly increasing corpus order: nondecreasing score, and equal
scores keep ascending corpus index. -/
def ascLex (x y : ScEntry) : Prop :=
  scoreLe x.2.2 y.2.2 = true ∧ (scoreLe y.2.2 x.2.2 = true → x.1 < y.1)

/-! ## Sanity checks -/

example : pyParseInt (strip "  2 ".data) = some 2 := by decide
example : pyParseInt (lowerStr (strip " back".data)) = none := by decide
example : subOf "".data "abc".data = true := by decide
example : subOf "rab".data (lowerStr "Arabidopsis".data) = true := by decide

example :
    (buildIndex none false true (fun _ => [1]) (fun _ _ => [1])
      [rowToExp "baseline" ⟨some "E-X-1", some "sp", none, none⟩]).embeddings
      = [[1]] := by
  decide

example : (parseUserInput "help me download e-mtab-513 now").experimentId
    = some "E-MTAB-513" := by decide
example : (parseUserInput "arabidopsis seedling").experimentType
    = "baseline" := by decide
example : (parseUserInput "cancer in mice").experimentType
    = "differential" := by decide
example : (parseUserInput "E-GEOD-7").experimentId = some "E-GEOD-7" := by decide
example : (parseUserInput "E-GEOD-").experimentId = none := by decide

/-! ## Order lemmas for the score comparator -/

theorem posDen_pos (p : ℚ) : 0 < posDen p := by
  unfold posDen; split
  · assumption
  · norm_num

theorem ratPairLe_total (a b : ℚ × ℚ) :
    ratPairLe a b = true ∨ ratPairLe b a = true := by
  unfold ratPairLe
  rcases lt_or_le a.1 0 with ha | ha <;> rcases lt_or_le b.1 0 with hb | hb
  · simp only [if_pos ha, if_pos hb, not_le.mpr ha, not_le.mpr hb, if_neg]
    rcases le_total (b.1 ^ 2 * posDen a.2) (a.1 ^ 2 * posDen b.2) with h | h
    · left; simpa using h
    · right; simpa using h
  · left; simp [if_pos ha, hb]
  · right; simp [if_pos hb, ha]
  · simp only [if_neg (not_lt.mpr ha), if_neg (not_lt.mpr hb)]
    rcases le_total (a.1 ^ 2 * posDen b.2) (b.1 ^ 2 * posDen a.2) with h | h
    · left; simpa using h
    · right; simpa using h

theorem scoreLe_total (a b : Score) : scoreLe a b = true ∨ scoreLe b a = true := by
  cases a <;> cases b <;> simp [scoreLe]
  exact ratPairLe_total _ _

theorem ratPairLe_trans {a b c : ℚ × ℚ}
    (h1 : ratPairLe a b = true) (h2 : ratPairLe b c = true) :
    ratPairLe a c = true := by
  have pa := posDen_pos a.2
  have pb := posDen_pos b.2
  have pc := posDen_pos c.2
  unfold ratPairLe at *
  rcases lt_or_le a.1 0 with ha | ha <;> rcases lt_or_le b.1 0 with hb | hb <;>
    rcases lt_or_le c.1 0 with hc | hc <;>
    simp_all [not_lt.mpr, not_le.mpr]
  · nlinarith [mul_le_mul_of_nonneg_right h1 pc.le,
      mul_le_mul_of_nonneg_right h2 pa.le]
  · nlinarith [mul_le_mul_of_nonneg_right h1 pc.le,
      mul_le_mul_of_nonneg_right h2 pa.le]

theorem scoreLe_trans {a b c : Score}
    (h1 : scoreLe a b = true) (h2 : scoreLe b c = true) : scoreLe a c = true := by
  cases a <;> cases b <;> cases c <;> simp_all [scoreLe]
  exact ratPairLe_trans h1 h2

/-! ## Structural lemmas about the ranker -/

theorem attachRanks_map_hitEntry (l : List ScEntry) :
    ∀ n, (attachRanks n l).map hitEntry = l := by
  induction l with
  | nil => intro n; rfl
  | cons x t ih =>
      intro n
      obtain ⟨i, e, s⟩ := x
      simp [attachRanks, hitEntry, ih]

theorem mem_insScore {y x : ScEntry} {l : List ScEntry} :
    y ∈ insScore x l ↔ y = x ∨ y ∈ l := by
  induction l with
  | nil => simp [insScore]
  | cons z t ih =>
      by_cases h : scoreLe x.2.2 z.2.2 = true
      · simp [insScore, h]
      · simp only [insScore, if_neg h, List.mem_cons, ih]
        tauto

theorem mem_sortAsc {y : ScEntry} {l : List ScEntry} :
    y ∈ sortAsc l ↔ y ∈ l := by
  induction l with
  | nil => simp [sortAsc]
  | cons x t ih => simp [sortAsc, mem_insScore, ih]

theorem mem_zipIdx_le {c : Cand} : ∀ {i : Nat} {es : List Exp} {vs : List Vec},
    c ∈ zipIdx i es vs → i ≤ c.1 := by
  intro i es
  induction es generalizing i with
  | nil => intro vs h; simp [zipIdx] at h
  | cons e et ih =>
      intro vs h
      cases vs with
      | nil => simp [zipIdx] at h
      | cons v vt =>
          rcases (List.mem_cons.mp h) with h' | h'
          · subst h'; exact le_refl _
          · exact le_trans (Nat.le_succ i) (ih h')

theorem zipIdx_pairwise_lt : ∀ (i : Nat) (es : List Exp) (vs : List Vec),
    (zipIdx i es vs).Pairwise (fun a b : Cand => a.1 < b.1) := by
  intro i es
  induction es generalizing i with
  | nil => intro vs; simp [zipIdx]
  | cons e et ih =>
      intro vs
      cases vs with
      | nil => simp [zipIdx]
      | cons v vt =>
          refine List.pairwise_cons.mpr ⟨?_, ih (i + 1) vt⟩
          intro b hb
          exact lt_of_lt_of_le (Nat.lt_succ_self i) (mem_zipIdx_le hb)

/-- Every returned hit passed the species/type filter. -/
theorem searchExps_mem_passFilter {h : SearchHit}
    {exps : List Exp} {embs : List Vec} {qEmb : Vec} {topK : Nat}
    {sf tf : Option String}
    (hmem : h ∈ searchExps exps embs qEmb topK sf tf) :
    passFilter sf tf h.exp = true := by
  simp only [searchExps] at hmem
  split at hmem
  · simp at hmem
  · have h1 : hitEntry h ∈
        ((sortAsc (scoredCands qEmb (filteredCands exps embs sf tf))).reverse).take topK := by
      have hm2 := List.mem_map_of_mem hitEntry hmem
      rwa [attachRanks_map_hitEntry] at hm2
    have h2 : hitEntry h ∈ sortAsc (scoredCands qEmb (filteredCands exps embs sf tf)) :=
      List.mem_reverse.mp ((List.take_sublist _ _).mem h1)
    have h3 : hitEntry h ∈ scoredCands qEmb (filteredCands exps embs sf tf) :=
      mem_sortAsc.mp h2
    obtain ⟨c, hc, hce⟩ := List.mem_map.mp h3
    have hpass : passFilter sf tf c.2.1 = true :=
      (List.mem_filter.mp hc).2
    have : h.exp = c.2.1 := by
      have := congrArg (fun x : ScEntry => x.2.1) hce
      simpa [hitEntry] using this.symm
    rwa [this]

theorem insScore_pairwise {x : ScEntry} {l : List ScEntry}
    (hl : l.Pairwise ascLex) (hidx : ∀ y ∈ l, x.1 < y.1) :
    (insScore x l).Pairwise ascLex := by
  induction l with
  | nil => simp [insScore, ascLex]
  | cons y ys ih =>
      obtain ⟨hy, hys⟩ := List.pairwise_cons.mp hl
      by_cases hle : scoreLe x.2.2 y.2.2 = true
      · rw [insScore, if_pos hle]
        refine List.pairwise_cons.mpr ⟨?_, hl⟩
        intro z hz
        rcases List.mem_cons.mp hz with rfl | hz'
        · exact ⟨hle, fun _ => hidx z (List.mem_cons_self _ _)⟩
        · refine ⟨scoreLe_trans hle (hy z hz').1, fun _ => hidx z (List.mem_cons.mpr (Or.inr hz'))⟩
      · simp only [insScore, if_neg hle]
        refine List.pairwise_cons.mpr ⟨?_, ih hys (fun z hz => hidx z (List.mem_cons.mpr (Or.inr hz)))⟩
        intro z hz
        rcases mem_insScore.mp hz with rfl | hz'
        · have hyx : scoreLe y.2.2 z.2.2 = true := by
            rcases scoreLe_total z.2.2 y.2.2 with h | h
            · exact absurd h hle
            · exact h
          refine ⟨hyx, fun hzx => absurd hzx hle⟩
        · exact hy z hz'

theorem sortAsc_pairwise {l : List ScEntry}
    (hl : l.Pairwise (fun a b : ScEntry => a.1 < b.1)) :
    (sortAsc l).Pairwise ascLex := by
  induction l with
  | nil => simp [sortAsc]
  | cons x xs ih =>
      obtain ⟨hx, hxs⟩ := List.pairwise_cons.mp hl
      exact insScore_pairwise (ih hxs) (fun y hy => hx y (mem_sortAsc.mp hy))

/-- The candidates enter the sort in strictly increasing corpus order. -/
theorem scoredCands_pairwise_lt (q : Vec) (exps : List Exp) (embs : List Vec)
    (sf tf : Option String) :
    (scoredCands q (filteredCands exps embs sf tf)).Pairwise
      (fun a b : ScEntry => a.1 < b.1) := by
  unfold scoredCands filteredCands
  rw [List.pairwise_map]
  exact List.Pairwise.filter _ (zipIdx_pairwise_lt 0 exps embs)

/-- Descending-order invariant of the returned hit list: scores never
increase, and equal scores appear with the higher corpus index first. -/
theorem searchExps_sorted (exps : List Exp) (embs : List Vec) (qEmb : Vec)
    (topK : Nat) (sf tf : Option String) :
    (searchExps exps embs qEmb topK sf tf).Pairwise
      (fun a b : SearchHit => scoreLe b.score a.score = true ∧
        (scoreLe a.score b.score = true → b.origIdx < a.origIdx)) := by
  simp only [searchExps]
  split
  · exact List.Pairwise.nil
  · have h1 : (sortAsc (scoredCands qEmb (filteredCands exps embs sf tf))).Pairwise ascLex :=
      sortAsc_pairwise (scoredCands_pairwise_lt qEmb exps embs sf tf)
    have h2 : ((sortAsc (scoredCands qEmb (filteredCands exps embs sf tf))).reverse).Pairwise
        (fun a b : ScEntry => ascLex b a) :=
      List.pairwise_reverse.mpr h1
    have h3 : (((sortAsc (scoredCands qEmb (filteredCands exps embs sf tf))).reverse).take
        topK).Pairwise (fun a b : ScEntry => ascLex b a) :=
      h2.sublist (List.take_sublist _ _)
    have h4 : ((attachRanks 1 (((sortAsc (scoredCands qEmb
        (filteredCands exps embs sf tf))).reverse).take topK)).map hitEntry).Pairwise
        (fun a b : ScEntry => ascLex b a) := by
      rw [attachRanks_map_hitEntry]; exact h3
    have h5 := List.pairwise_map.mp h4
    exact h5.imp (fun {a b} hab => ⟨hab.1, hab.2⟩)

/-! ## Helper lemmas for the filter claims -/

theorem subOf_nil (hay : List Char) : subOf [] hay = true := by
  cases hay <;> simp [subOf, startsWith]

theorem str_empty_of_isEmpty {s : String} (h : s.isEmpty = true) : s = "" :=
  (String.isEmpty_iff s).mp h

theorem passFilter_species {s : String} {tf : Option String} {e : Exp}
    (h : passFilter (some s) tf e = true) :
    subOf (lowerStr s.data) (speciesText e) = true := by
  unfold passFilter at h
  rw [Bool.and_eq_true] at h
  by_cases hs : s.isEmpty = true
  · rw [str_empty_of_isEmpty hs]
    exact subOf_nil _
  · have h2 : (if s.isEmpty = true then true
        else subOf (lowerStr s.data) (speciesText e)) = true := h.1
    rwa [if_neg hs] at h2

theorem passFilter_type {sf : Option String} {t : String} {e : Exp}
    (h : passFilter sf (some t) e = true) (ht : t ≠ "") : e.type = t := by
  unfold passFilter at h
  rw [Bool.and_eq_true] at h
  have hne : ¬ t.isEmpty = true := fun he => ht (str_empty_of_isEmpty he)
  have h2 : (if t.isEmpty = true then true else decide (e.type = t)) = true := h.2
  rw [if_neg hne] at h2
  exact of_decide_eq_true h2

theorem anyKw_eq_false {kws : List String} {low : List Char}
    (h : ∀ kw ∈ kws, subOf kw.data low = false) : anyKw kws low = false := by
  unfold anyKw
  rw [List.any_eq_false]
  intro k hk
  simp [h k hk]

/-! ## Claim theorems -/

/-- C5 counterexample: a row whose required fields (`accession`, `species`)
are both unparseable (NaN) is *not* dropped by the loader — the corresponding
record appears in the resulting corpus, refuting the claimed silent drop. -/
theorem load_keeps_unparseable_required_fields :
    rowToExp "baseline" ⟨none, none, none, none⟩ ∈
      loadExperiments (some [⟨none, none, none, none⟩]) none := by decide

/-- C5 (amended): the loader drops no rows at all. Every row of every present
source file contributes exactly one record (a missing file contributes zero);
`accession` and `species` are stored as-is — even when unparseable — while
`description` and `factors` default to the empty string when unparseable. -/
theorem load_preserves_every_row (bf df : Option (List RawRow)) :
    ((loadExperiments bf df).length = (bf.getD []).length + (df.getD []).length) ∧
    (∀ cat r, (rowToExp cat r).accession = r.accession ∧
      (rowToExp cat r).species = r.species ∧
      (rowToExp cat r).description = r.description.getD "" ∧
      (rowToExp cat r).factors = r.factors.getD "") := by
  refine ⟨?_, fun cat r => ⟨rfl, rfl, rfl, rfl⟩⟩
  simp [loadExperiments]

/-- C1 counterexample: a persisted cache whose stored row count (2) differs
from the current corpus size (1) is still deserialized and reused — the
returned matrix is the stale cached one and no rebuild happens. -/
theorem build_reuses_mismatched_cache :
    (buildIndex (some ⟨[[1], [2]], 2, "tfidf"⟩) false true (fun _ => [5])
        (fun _ _ => [6])
        [rowToExp "baseline" ⟨some "A", some "s", none, none⟩]).usedCache = true ∧
    (buildIndex (some ⟨[[1], [2]], 2, "tfidf"⟩) false true (fun _ => [5])
        (fun _ _ => [6])
        [rowToExp "baseline" ⟨some "A", some "s", none, none⟩]).embeddings
      = [[1], [2]] := by decide

/-- C1 (amended): without `force_rebuild`, a readable persisted cache is
deserialized and reused *unconditionally* — `build_index` never consults the
stored row count, so a mismatch with `len(corpus)` does not force a rebuild. -/
theorem build_cache_reused_unconditionally (c : CacheData) (modelAvailable : Bool)
    (encoder : String → Vec) (tfidfEncoder : List Exp → String → Vec)
    (exps : List Exp) :
    (buildIndex (some c) false modelAvailable encoder tfidfEncoder exps).usedCache
        = true ∧
    (buildIndex (some c) false modelAvailable encoder tfidfEncoder exps).embeddings
        = c.embeddings := by
  unfold buildIndex
  by_cases h : c.method = "tfidf" <;> simp [h]

/-- C8 counterexample: `build_index` over an *empty* corpus (no usable cache,
model available) still calls `_init_model` — which loads the embedding model —
and still performs the batch `model.encode` call, refuting "without invoking
the embedding model". -/
theorem build_empty_corpus_invokes_model :
    (buildIndex none false true (fun _ => [7]) (fun _ _ => [8]) []).initModelCalled
        = true ∧
    (buildIndex none false true (fun _ => [7]) (fun _ _ => [8]) []).encodeCalled
        = true := by decide

/-- C8 (amended): `build_index` over an empty corpus (no cache reuse) does
return a zero-row index, but it always calls `_init_model`, and when the model
is available it also performs the (empty) batch encode call. -/
theorem build_empty_corpus_zero_rows (modelAvailable : Bool)
    (encoder : String → Vec) (tfidfEncoder : List Exp → String → Vec) :
    (buildIndex none false modelAvailable encoder tfidfEncoder []).embeddings = [] ∧
    (buildIndex none false modelAvailable encoder tfidfEncoder []).initModelCalled
        = true ∧
    (buildIndex none false modelAvailable encoder tfidfEncoder []).encodeCalled
        = modelAvailable := by
  unfold buildIndex
  cases modelAvailable <;> simp

/-- C3 counterexample: for the zero-norm row `[0, 0]` against query `[1, 0]`
the unguarded division produces NaN (`0/0`), not the similarity 0 the claim
describes: the computed score is `none` and is not a zero score. -/
theorem zero_norm_similarity_is_nan :
    cosineScore [0, 0] [1, 0] = none ∧
    isZeroScore (cosineScore [0, 0] [1, 0]) = false := by
  constructor <;> with_unfolding_all rfl

/-- C3 (amended): the division in `search` is *not* guarded — a zero-norm row
or a zero-norm query yields the undefined (NaN) similarity `none`, never the
value 0; conversely nonzero norms always produce a numeric score. -/
theorem cosineScore_nan_iff (row q : Vec) :
    cosineScore row q = none ↔ (sumSq row = 0 ∨ sumSq q = 0) := by
  unfold cosineScore
  split <;> simp_all

/-- C2 counterexample: two identical records (corpus indices 0 and 1) get the
same similarity score, yet `search` returns index 1 *before* index 0 — the
ascending `argsort` keeps ties in corpus order and the `[::-1]` reversal flips
them, so the *lower* corpus index does not come first. -/
theorem search_tie_puts_higher_index_first :
    (searchExps
        [⟨some "A0", "baseline", some "sp", "", ""⟩,
         ⟨some "A1", "baseline", some "sp", "", ""⟩]
        [[1], [1]] [1] 5 none none).map SearchHit.origIdx = [1, 0] ∧
    (searchExps
        [⟨some "A0", "baseline", some "sp", "", ""⟩,
         ⟨some "A1", "baseline", some "sp", "", ""⟩]
        [[1], [1]] [1] 5 none none).map SearchHit.score
      = [some (1, 1), some (1, 1)] := by
  constructor <;> with_unfolding_all rfl

/-- C2 (amended): for every query and filter set the returned results are
sorted by descending similarity (NaN scores, which `argsort` places last in
ascending order, come first after the reversal); whenever two results have
equal similarity scores, the one with the *higher* original corpus index
appears first. -/
theorem search_rank_ordering (exps : List Exp) (embs : List Vec) (qEmb : Vec)
    (topK : Nat) (sf tf : Option String) :
    (searchExps exps embs qEmb topK sf tf).Pairwise
      (fun a b : SearchHit => scoreLe b.score a.score = true ∧
        (scoreLe a.score b.score = true → b.origIdx < a.origIdx)) :=
  searchExps_sorted exps embs qEmb topK sf tf

/-- C6 counterexample: with the *empty-string* category filter (a provided
filter value), the sole baseline record is returned even though its category
`"baseline"` does not equal the filter `""` — Python's truthiness test
disables the equality check for a falsy filter. -/
theorem empty_category_filter_ignored :
    (searchExps [⟨some "A0", "baseline", some "sp", "", ""⟩] [[1]] [1] 5
        none (some "")).map (fun h => h.exp.type) = ["baseline"] ∧
    ("baseline" : String) ≠ "" := by
  refine ⟨by with_unfolding_all rfl, by decide⟩

/-- C6 (amended): every result returned under a `species_filter` has the
filter as a case-insensitive substring of its species text (this also holds
for the empty filter, which every string contains); every result returned
under a *non-empty* `category_filter` has exactly that category — an
empty-string category filter is treated as absent. -/
theorem search_filter_correctness (exps : List Exp) (embs : List Vec)
    (qEmb : Vec) (topK : Nat) (sf t : String) (h : SearchHit)
    (hmem : h ∈ searchExps exps embs qEmb topK (some sf) (some t)) :
    subOf (lowerStr sf.data) (speciesText h.exp) = true ∧
    (t ≠ "" → h.exp.type = t) := by
  have hp := searchExps_mem_passFilter hmem
  exact ⟨passFilter_species hp, fun ht => passFilter_type hp ht⟩

/-- C6 witness: the filter-correctness theorem applied to a concrete search
(`species_filter = "spec"`, `category_filter = "baseline"`) and its returned
hit. -/
theorem search_filter_correctness_witness :
    subOf (lowerStr "spec".data)
        (speciesText ⟨some "A0", "baseline", some "Species X", "", ""⟩) = true ∧
    ("baseline" ≠ "" →
      (⟨some "A0", "baseline", some "Species X", "", ""⟩ : Exp).type = "baseline") :=
  search_filter_correctness
    [⟨some "A0", "baseline", some "Species X", "", ""⟩] [[1]] [1] 5
    "spec" "baseline" ⟨0, ⟨some "A0", "baseline", some "Species X", "", ""⟩, some (1, 1), 1⟩
    (of_decide_eq_true (by with_unfolding_all rfl))

/-- C9: the parser always emits a non-null category — when the input contains
no experiment-type keyword it defaults to `'baseline'` — and the coordinator's
top-3 search filters on exactly that category, so no `differential` record can
be among the candidates returned for such a query. -/
theorem default_category_excludes_differential (input : String)
    (hkw : ∀ kw ∈ baselineKws ++ differentialKws,
      subOf kw.data (lowerStr input.data) = false) :
    (parseUserInput input).experimentType = "baseline" ∧
    ∀ (exps : List Exp) (embs : List Vec) (encoder : String → Vec)
      (h : SearchHit), h ∈ topExperimentsFor input exps embs encoder →
        h.exp.type = "baseline" ∧ h.exp.type ≠ "differential" := by
  have hb : anyKw baselineKws (lowerStr input.data) = false :=
    anyKw_eq_false (fun kw hkw2 => hkw kw (List.mem_append.mpr (Or.inl hkw2)))
  have hd : anyKw differentialKws (lowerStr input.data) = false :=
    anyKw_eq_false (fun kw hkw2 => hkw kw (List.mem_append.mpr (Or.inr hkw2)))
  have htype : (parseUserInput input).experimentType = "baseline" := by
    simp [parseUserInput, hb, hd]
  refine ⟨htype, ?_⟩
  intro exps embs encoder h hmem
  simp only [topExperimentsFor, searchByKeywords, htype] at hmem
  have hp := searchExps_mem_passFilter hmem
  have ht := passFilter_type hp (by decide)
  exact ⟨ht, by rw [ht]; decide⟩

/-- C9 witness: the theorem applied to the concrete query
`"arabidopsis seedling data"`, which contains no experiment-type keyword. -/
theorem default_category_excludes_differential_witness :
    (parseUserInput "arabidopsis seedling data").experimentType = "baseline" ∧
    ∀ (exps : List Exp) (embs : List Vec) (encoder : String → Vec)
      (h : SearchHit),
        h ∈ topExperimentsFor "arabidopsis seedling data" exps embs encoder →
          h.exp.type = "baseline" ∧ h.exp.type ≠ "differential" :=
  default_category_excludes_differential "arabidopsis seedling data" (by decide)

/-- C10: whenever the raw input contains a (case-insensitive) match of
`E-<letters>-<digits>`, the `INITIAL`-state turn takes the uppercased leftmost
match as the explicit accession: the vector search never runs and exactly that
accession is handed to the detail step as the selection, whatever else the
input says. -/
theorem explicit_id_skips_search (sess : Session) (input : String)
    (exps : List Exp) (embs : List Vec) (encoder : String → Vec)
    (ftp : FtpResult) (fallbackRec : Option String)
    (downloaded : List (String × String)) (m : List Char)
    (hstate : sess.state = ChatState.INITIAL)
    (hm : findFirstExpId input.data = some m) :
    (processQuery sess input exps embs encoder ftp fallbackRec
        downloaded).searchRan = false ∧
    (processQuery sess input exps embs encoder ftp fallbackRec
        downloaded).detailAccession = some (some (upperStr m)) := by
  have hid : (parseUserInput input).experimentId = some (upperStr m) := by
    simp [parseUserInput, hm]
  unfold processQuery
  rw [hstate]
  simp [processInitial, hid]

/-- C10 witness: the theorem applied to the concrete input
`"Help me download experiment e-mtab-513 for mouse"`. -/
theorem explicit_id_skips_search_witness :
    (processQuery resetSession "Help me download experiment e-mtab-513 for mouse"
        [] [] (fun _ => []) ⟨false, []⟩ none []).searchRan = false ∧
    (processQuery resetSession "Help me download experiment e-mtab-513 for mouse"
        [] [] (fun _ => []) ⟨false, []⟩ none []).detailAccession
      = some (some (upperStr "e-mtab-513".data)) :=
  explicit_id_skips_search resetSession
    "Help me download experiment e-mtab-513 for mouse" [] [] (fun _ => [])
    ⟨false, []⟩ none [] "e-mtab-513".data rfl (by decide)

/-- C4 counterexample: in `SELECTING` with 3 candidates, the valid choice
`"2"` does *not* put the session in `CONFIRMING` when the FTP browse for the
chosen accession fails — the turn ends in a full reset to `INITIAL` with the
selection cleared. -/
theorem valid_selection_not_always_confirming :
    pyParseInt (lowerStr (strip "2".data)) = some 2 ∧
    (processQuery
        ⟨.SELECTING, none,
          [⟨0, ⟨some "A0", "baseline", some "sp", "", ""⟩, some (1, 1), 1⟩,
           ⟨1, ⟨some "A1", "baseline", some "sp", "", ""⟩, some (1, 1), 2⟩,
           ⟨2, ⟨some "A2", "baseline", some "sp", "", ""⟩, some (1, 1), 3⟩],
          none⟩
        "2" [] [] (fun _ => []) ⟨false, []⟩ none []).sess = resetSession ∧
    resetSession.state ≠ ChatState.CONFIRMING := by
  refine ⟨by decide, by with_unfolding_all rfl, by decide⟩

/-- C4 (amended): in `SELECTING` with a choice `n` in range, the chosen
candidate's accession is handed to the detail step as the selection; the
session ends the turn in `CONFIRMING` (with that selection retained) iff the
accession is truthy, the FTP browse succeeds and a recommended expression
file is identified — in every other case the session is reset to `INITIAL`
(selection cleared). -/
theorem selection_in_range_outcome (sess : Session) (input : String)
    (exps : List Exp) (embs : List Vec) (encoder : String → Vec)
    (ftp : FtpResult) (fallbackRec : Option String)
    (downloaded : List (String × String)) (n : Int) (hit : SearchHit)
    (hstate : sess.state = ChatState.SELECTING)
    (hn : pyParseInt (lowerStr (strip input.data)) = some n)
    (h1 : 1 ≤ n) (h2 : n ≤ (sess.currentRecommendations.length : Int))
    (hget : sess.currentRecommendations.get? (n.toNat - 1) = some hit) :
    (processQuery sess input exps embs encoder ftp fallbackRec
        downloaded).detailAccession = some hit.exp.accession ∧
    ((processQuery sess input exps embs encoder ftp fallbackRec
        downloaded).sess.state = ChatState.CONFIRMING ↔
      (accTruthy hit.exp.accession = true ∧ ftp.success = true ∧
        (recommendedFile ftp.files).isSome = true)) ∧
    ((processQuery sess input exps embs encoder ftp fallbackRec
        downloaded).sess.state = ChatState.CONFIRMING →
      (processQuery sess input exps embs encoder ftp fallbackRec
        downloaded).sess.selectedExperiment = some hit.exp.accession) ∧
    ((processQuery sess input exps embs encoder ftp fallbackRec
        downloaded).sess.state ≠ ChatState.CONFIRMING →
      (processQuery sess input exps embs encoder ftp fallbackRec
        downloaded).sess = resetSession) := by
  unfold processQuery
  rw [hstate]
  unfold handleSelection
  have hne : ¬(lowerStr (strip input.data) = "back".data ∨
      lowerStr (strip input.data) = "new".data ∨
      lowerStr (strip input.data) = "cancel".data) := by
    have hb : pyParseInt "back".data = none := by decide
    have hw : pyParseInt "new".data = none := by decide
    have hc : pyParseInt "cancel".data = none := by decide
    rintro (h | h | h) <;> rw [h] at hn <;> simp_all
  rw [if_neg hne, hn]
  simp only []
  rw [if_pos ⟨h1, h2⟩, hget]
  simp only []
  unfold showExperimentDetails
  simp only []
  by_cases hacc : accTruthy hit.exp.accession = true
  · rw [if_pos hacc]
    by_cases hsucc : ftp.success = true
    · rw [if_pos hsucc]
      cases hrec : recommendedFile ftp.files with
      | some f => simp [hacc, hsucc, hrec]
      | none => simp [resetSession, hrec]
    · rw [if_neg hsucc]
      simp [resetSession, hsucc]
  · rw [if_neg hacc]
    simp [resetSession, hacc]

/-- C4 witness: the amended theorem applied to a concrete `SELECTING` session
with one candidate, input `"1"`, and a successful FTP browse exposing a
`tpms` file: the turn ends in `CONFIRMING` with the selection set. -/
theorem selection_in_range_outcome_witness :
    (processQuery
        ⟨.SELECTING, none,
          [⟨0, ⟨some "E-MTAB-1", "baseline", some "sp", "", ""⟩, some (1, 1), 1⟩],
          none⟩
        "1" [] [] (fun _ => []) ⟨true, ["E-MTAB-1-tpms.tsv"]⟩ none
        []).sess.state = ChatState.CONFIRMING ∧
    (processQuery
        ⟨.SELECTING, none,
          [⟨0, ⟨some "E-MTAB-1", "baseline", some "sp", "", ""⟩, some (1, 1), 1⟩],
          none⟩
        "1" [] [] (fun _ => []) ⟨true, ["E-MTAB-1-tpms.tsv"]⟩ none
        []).sess.selectedExperiment = some (some "E-MTAB-1") := by
  have h := selection_in_range_outcome
    ⟨.SELECTING, none,
      [⟨0, ⟨some "E-MTAB-1", "baseline", some "sp", "", ""⟩, some (1, 1), 1⟩],
      none⟩
    "1" [] [] (fun _ => []) ⟨true, ["E-MTAB-1-tpms.tsv"]⟩ none [] 1
    ⟨0, ⟨some "E-MTAB-1", "baseline", some "sp", "", ""⟩, some (1, 1), 1⟩
    rfl (by decide) (by decide) (by decide) (by decide)
  have hc := h.2.1.mpr ⟨by decide, rfl, by decide⟩
  exact ⟨hc, h.2.2.1 hc⟩

/-- C7: in `CONFIRMING`, every affirmative input (`yes`/`y`/`download`)
triggers the follow-on download for the current selection and then resets the
session to `INITIAL` — for *every* download outcome, non-empty mapping
(success) or empty (failure) alike; a failure never moves the session to an
earlier state and is not retried. -/
theorem confirm_affirmative_resets (sess : Session) (input : String)
    (exps : List Exp) (embs : List Vec) (encoder : String → Vec)
    (ftp : FtpResult) (fallbackRec : Option String)
    (downloaded : List (String × String))
    (hstate : sess.state = ChatState.CONFIRMING)
    (haff : lowerStr (strip input.data) = "yes".data ∨
      lowerStr (strip input.data) = "y".data ∨
      lowerStr (strip input.data) = "download".data) :
    (processQuery sess input exps embs encoder ftp fallbackRec
        downloaded).downloadInvoked = true ∧
    (processQuery sess input exps embs encoder ftp fallbackRec
        downloaded).sess = resetSession := by
  unfold processQuery
  rw [hstate]
  unfold handleDownloadConfirmation
  have hne : ¬(lowerStr (strip input.data) = "back".data ∨
      lowerStr (strip input.data) = "cancel".data) := by
    rintro (h | h) <;> rcases haff with h2 | h2 | h2 <;> rw [h] at h2 <;>
      exact absurd h2 (by decide)
  rw [if_neg hne, if_pos haff]
  exact ⟨rfl, rfl⟩

/-- C7 witness: affirmative `"yes"` with a *failed* download (empty mapping):
the download is triggered and the session still resets to `INITIAL`. -/
theorem confirm_affirmative_resets_witness :
    (processQuery ⟨.CONFIRMING, none, [], some (some "E-MTAB-1")⟩ "yes"
        [] [] (fun _ => []) ⟨false, []⟩ none []).downloadInvoked = true ∧
    (processQuery ⟨.CONFIRMING, none, [], some (some "E-MTAB-1")⟩ "yes"
        [] [] (fun _ => []) ⟨false, []⟩ none []).sess = resetSession :=
  confirm_affirmative_resets ⟨.CONFIRMING, none, [], some (some "E-MTAB-1")⟩
    "yes" [] [] (fun _ => []) ⟨false, []⟩ none [] rfl (by decide)
